import Mathlib

/-!
Shallow embedding of src/shp_handler.py (class ShpHandler) and proofs about
its spatial-join engine: the join-field mapping builder _set_for_join_fields,
the per-field merge step of spatial_join, the source-feature materialisation
features_to_list_of_dict, the progress computation, the output-path
resolution, and the error-cleanup control flow of spatial_join and to_zip.
File-system effects of the GDAL collaborators are modelled by explicit state
passing; Python exceptions by Except.  Line numbers refer to
src/shp_handler.py.
-/

namespace ShpHandler

/-! Python scalar values.  Feature attribute values in the code are Python
scalars read through GetField: None, strings, or numbers.  truthy is Python
truthiness as used on lines 149 and 153; toStr is Python str() as used on
lines 150 and 153. -/

/-- A Python scalar attribute value: None, a string, or an integer. -/
inductive PyVal where
  | vnone : PyVal
  | vstr : String → PyVal
  | vint : Int → PyVal
deriving DecidableEq, Repr

/-- Python truthiness of a scalar: None, the empty string and 0 are falsy. -/
def PyVal.truthy : PyVal → Bool
  | .vnone => false
  | .vstr s => s ≠ ""
  | .vint n => n ≠ 0

/-- Python str() on a scalar. -/
def PyVal.toStr : PyVal → String
  | .vnone => "None"
  | .vstr s => s
  | .vint n => toString n

/-! Decimal rendering of the collision counter.  Line 95 generates replacement
field names with the f-string new{name_num}, i.e. the word new followed by the
decimal digits of the counter.  Decimal rendering of a natural number is
embedded directly (little-endian digit list, reversed and mapped to digit
characters), which lets us prove the generated names injective in the
counter.  The digit loop carries structural fuel so that it evaluates by
kernel reduction; fuel n always suffices for input n. -/

/-- Little-endian decimal digits of n, with structural fuel (least significant
digit first; never the empty list). -/
def digitsLEAux : Nat → Nat → List Nat
  | 0, n => [n % 10]
  | fuel + 1, n => if n < 10 then [n] else n % 10 :: digitsLEAux fuel (n / 10)

/-- Little-endian decimal digits of n. -/
def digitsLE (n : Nat) : List Nat := digitsLEAux n n

/-- Value of a little-endian digit list. -/
def valLE : List Nat → Nat
  | [] => 0
  | d :: ds => d + 10 * valLE ds

/-- Decimal string of a natural number, as Python renders it in an f-string. -/
def natRepr (n : Nat) : String :=
  ((digitsLE n).reverse.map Nat.digitChar).asString

/-- The replacement name generated at counter value k: Python f-string new{k}
(line 95). -/
def genName (k : Nat) : String := "new" ++ natRepr k

/-! Join-field mapping (_set_for_join_fields, lines 78-100).  The code keeps
the live destination schema in the Python set field_names = self._field_names
(an alias of the handler attribute, mutated in place by field_names.add on
line 99).  We model the set as a List String used for membership.  The inner
while loop of lines 91-95 is

    new_name = join_field
    name_num = 0
    while new_name in field_names:
        name_num += 1
        new_name = f-string new{name_num}

Note name_num is re-initialised to 0 for every source field.  The loop is
embedded with explicit fuel; names.length + 1 trial names always contain a
fresh one because genName is injective (proved below). -/

/-- Embedding of the while loop of lines 93-95 after the first collision:
starting from counter value num, try genName (num+1), genName (num+2), and so
on until a name not in names is found, with fuel bounding the number of
trials. -/
def resolveAux (names : List String) : Nat → Nat → String
  | 0, num => genName (num + 1)
  | fuel + 1, num =>
    let c := genName (num + 1)
    if c ∈ names then resolveAux names fuel (num + 1) else c

/-- Resolution of one candidate field name against the live schema names
(lines 91-95): keep cand if it does not collide, otherwise run the counter
loop from name_num = 0. -/
def resolveName (names : List String) (cand : String) : String :=
  if cand ∈ names then resolveAux names (names.length + 1) 0 else cand

/-- As resolveAux, additionally returning the list of generated candidate
names (every f-string new{name_num} produced by line 95, the accepted one
included). -/
def resolveAuxT (names : List String) : Nat → Nat → List String × String
  | 0, num => ([genName (num + 1)], genName (num + 1))
  | fuel + 1, num =>
    let c := genName (num + 1)
    if c ∈ names then
      let r := resolveAuxT names fuel (num + 1)
      (c :: r.1, r.2)
    else ([c], c)

/-- As resolveName, additionally returning the generated candidate names
(empty when the original candidate is accepted unchanged). -/
def resolveNameT (names : List String) (cand : String) : List String × String :=
  if cand ∈ names then resolveAuxT names (names.length + 1) 0 else ([], cand)

/-- Embedding of the loop of lines 90-99 over the source fields: for each
field resolve a collision-free destination name against the live schema,
record the pair in the mapping (the dict value update of line 98, with
CreateField on line 97), and add the accepted name to the live schema (line
99).  Returns the mapping in field order and the final schema list.  The
Python dict iterated over has distinct keys, so the field list is taken
duplicate-free where that matters. -/
def set_for_join_fields : List String → List String → List (String × String) × List String
  | names, [] => ([], names)
  | names, f :: rest =>
    let nn := resolveName names f
    let r := set_for_join_fields (nn :: names) rest
    ((f, nn) :: r.1, r.2)

/-- Concatenated trace of all generated candidate names (line 95) over one
whole mapping build. -/
def set_for_join_fieldsT : List String → List String → List String
  | _, [] => []
  | names, f :: rest =>
    let t := resolveNameT names f
    t.1 ++ set_for_join_fieldsT (t.2 :: names) rest

/-- Two successive spatial_join invocations on the same destination handler
with the same source fields: because _set_for_join_fields aliases and grows
self._field_names in place (lines 85 and 99), the second build starts from
the schema list produced by the first.  Returns the two mappings. -/
def twoJoins (names fields : List String) :
    List (String × String) × List (String × String) :=
  let r1 := set_for_join_fields names fields
  let r2 := set_for_join_fields r1.2 fields
  (r1.1, r2.1)

/-! The per-field merge step of spatial_join (lines 146-156):

    tojoin_val = tojoin_feature.GetField(new_field)
    forjoin_val = forjoin[field]
    if forjoin_val:
        forjoin_val = str(forjoin_val)
        if tojoin_val and (forjoin_val in tojoin_val):
            continue
    vals = [str(v) for v in (tojoin_val, forjoin_val) if v]
    vals.sort(key=lambda s: s.lower())
    new_val = (sep followed by one space).join(vals)
    tojoin_feature.SetField(new_field, new_val.strip())

GetField on the freshly created string field returns None or a string, so the
destination side is an Option String; the source side is a general scalar.
The embedding returns none when the continue is taken (no SetField call),
otherwise some of the written string. -/

/-- Python substring test (needle in hay) on strings: contiguous substring. -/
def strContains (hay needle : String) : Bool :=
  decide (needle.data <:+: hay.data)

/-- Python s.lower(), an ASCII case fold as Char.toLower per character. -/
def pyLower (s : String) : String := ⟨s.data.map Char.toLower⟩

/-- Lexicographic comparison of character lists by code point, as Python
compares strings. -/
def charListLe : List Char → List Char → Bool
  | [], _ => true
  | _ :: _, [] => false
  | a :: as, b :: bs => if a < b then true else if b < a then false else charListLe as bs

/-- Python comparison of the lower-cased sort keys. -/
def lowerLe (a b : String) : Bool := charListLe (pyLower a).data (pyLower b).data

/-- Stable insertion of a into a list sorted ascending by the pyLower key. -/
def insLower (a : String) : List String → List String
  | [] => [a]
  | b :: l => if lowerLe a b then a :: b :: l else b :: insLower a l

/-- Python list.sort with the lower-cased string as key (line 154): stable
ascending insertion sort. -/
def sortByLower : List String → List String
  | [] => []
  | a :: rest => insLower a (sortByLower rest)

/-- Python sep.join(vals) on a list of strings. -/
def pyJoin (sep : String) : List String → String
  | [] => ""
  | [a] => a
  | a :: rest => a ++ sep ++ pyJoin sep rest

/-- Python s.strip(): drop leading and trailing whitespace. -/
def pyStrip (s : String) : String :=
  ⟨((s.data.dropWhile Char.isWhitespace).reverse.dropWhile
      Char.isWhitespace).reverse⟩

/-- Python truthiness of the destination field value read by GetField. -/
def optTruthy : Option String → Bool
  | Option.none => false
  | some s => s ≠ ""

/-- The GetField result as a Python scalar. -/
def pyOfOpt : Option String → PyVal
  | Option.none => PyVal.vnone
  | some s => PyVal.vstr s

/-- One merge step for one mapped field pair (lines 146-156).  tojoin is the
current destination field value, forjoin the matching source value.  Returns
none when the loop body hits continue (field left untouched), otherwise some
v where v is the value passed to SetField.  The second tuple component
reflects the rebinding of forjoin_val to its str() image on line 150, which
happens exactly when forjoin_val is truthy. -/
def mergeField (sep : String) (tojoin : Option String) (forjoin : PyVal) :
    Option String :=
  if forjoin.truthy ∧ optTruthy tojoin ∧ strContains (tojoin.getD "") forjoin.toStr
  then Option.none
  else
    some (pyStrip (pyJoin (sep ++ " ") (sortByLower
      (([pyOfOpt tojoin,
          if forjoin.truthy then PyVal.vstr forjoin.toStr else forjoin].filter
            PyVal.truthy).map PyVal.toStr))))

/-! Source-feature materialisation (features_to_list_of_dict, lines 52-68):

    features = []
    for forjoin_feature in self._layer:
        forjoin = dict of GetField values over self._field_names
        forjoin_geom = forjoin_feature.GetGeometryRef()
        if forjoin_geom:
            if transform is not None:
                forjoin_geom.Transform(transform)
            forjoin gains the wkt_field_name key (a clone of the geometry)
            features.append(forjoin)
    return features

Geometries are opaque handles of the geometry collaborator; we take them as an
arbitrary type G, with the coordinate transformation an arbitrary function
G → G.  The WKT export/import round trip of line 66 is a clone, modelled as
the identity. -/

/-- One feature as read from a layer: its attribute lookup (Python GetField)
and its optional geometry (GetGeometryRef, which yields None when absent). -/
structure Feature (G : Type) where
  attrs : String → PyVal
  geom : Option G

/-- One materialised entry: the attribute dict restricted to the field names
plus the transformed geometry stored under the wkt key. -/
structure MatFeature (G : Type) where
  attrs : List (String × PyVal)
  geomVal : G

/-- Embedding of features_to_list_of_dict (lines 52-68): build the in-memory
list of source features; a feature whose GetGeometryRef is None is skipped
entirely (the append on line 67 is guarded by the test on line 63). -/
def features_to_list_of_dict (G : Type) (transform : Option (G → G))
    (field_names : List String) : List (Feature G) → List (MatFeature G)
  | [] => []
  | f :: rest =>
    match f.geom with
    | Option.none => features_to_list_of_dict G transform field_names rest
    | some g =>
      let g2 := match transform with
        | Option.none => g
        | some t => t g
      ⟨field_names.map (fun fl => (fl, f.attrs fl)), g2⟩
        :: features_to_list_of_dict G transform field_names rest

/-! Progress computation (lines 159-161):

    progress = int((feature_count - n) / feature_count * 100)

with n the number of destination features processed so far.  int() of the
non-negative real value is its floor, embedded as natural floor division. -/

/-- The integer progress percentage after n of feature_count destination
features have been processed (line 159). -/
def progress (feature_count n : Nat) : Nat :=
  (feature_count - n) * 100 / feature_count

/-! Output path resolution (lines 122-127):

    if path_to_new_ds is None:
        path_to_new_ds = self.get_default_join_name(other)
    _path_to_new_ds = path_to_new_ds + the extension .shp
    if not _path_to_new_ds.endswith(the extension .shp):
        _path_to_new_ds += the extension .shp
-/

/-- Python s.endswith(suffix). -/
def pyEndsWith (s suffix : String) : Bool :=
  decide (suffix.data <:+ s.data)

/-- The resolved on-disk path for an explicitly supplied path_to_new_ds
(lines 124-127). -/
def resolve_output_path (path_to_new_ds : String) : String :=
  let p := path_to_new_ds ++ ".shp"
  if pyEndsWith p ".shp" then p else p ++ ".shp"

/-! Error-cleanup control flow of spatial_join (lines 122-166):

    ds_copy = self.copy_ds(path_to_new_ds=_path_to_new_ds)   # line 129
    layer_copy = ds_copy.GetLayer()                          # line 130
    try:                                                     # line 131
        steps 2-6: schema build, materialisation, feature loop, close
    except Exception as e:                                   # line 163
        if os.path.exists(_path_to_new_ds):
            self.driver.DeleteDataSource(_path_to_new_ds)
        raise e

copy_ds (lines 28-39) first calls CreateDataSource, which creates the on-disk
file, then CopyLayer and a re-open, either of which can raise; all of that,
and the GetLayer call on line 130, runs BEFORE the try block.  The relevant
machine state is whether the file at the resolved output path exists, plus
the abstract content of the original destination dataset; an exception
carries the state at raise time.  Failure injection: errBefore makes
CreateDataSource itself fail (no file yet), errAfter makes a later part of
copy_ds or the GetLayer fail (file already created), bodyErr makes some step
inside the try block fail. -/

/-- File-system state seen by spatial_join: whether the output dataset file
exists, and the content of the original destination dataset. -/
structure JoinFS where
  output : Bool
  dest : Nat
deriving DecidableEq, Repr

/-- Embedding of copy_ds plus the GetLayer of line 130, with failure
injection: the CreateDataSource call creates the output file, after which
CopyLayer, the re-open, or GetLayer may still raise. -/
def copy_ds_model (st : JoinFS) (errBefore errAfter : Bool) :
    Except JoinFS JoinFS :=
  if errBefore then Except.error st
  else
    let st1 : JoinFS := { st with output := true }
    if errAfter then Except.error st1 else Except.ok st1

/-- The body of the try block (steps 2-6), which never writes to the original
destination dataset; bodyErr injects an exception somewhere inside it. -/
def join_body_model (st : JoinFS) (bodyErr : Bool) : Except JoinFS JoinFS :=
  if bodyErr then Except.error st else Except.ok st

/-- Embedding of the error-cleanup control flow of spatial_join (lines
129-166): the copy runs outside the try block, so its exceptions propagate
with no cleanup; an exception inside the try block deletes the output file
when it exists and re-raises. -/
def spatial_join_model (st : JoinFS) (errBefore errAfter bodyErr : Bool) :
    Except JoinFS JoinFS :=
  match copy_ds_model st errBefore errAfter with
  | Except.error st1 => Except.error st1
  | Except.ok st1 =>
    match join_body_model st1 bodyErr with
    | Except.ok st2 => Except.ok st2
    | Except.error st2 =>
      Except.error (if st2.output then { st2 with output := false } else st2)

/-- The file-system state of a spatial_join outcome (at return or at raise
time). -/
def joinOutState : Except JoinFS JoinFS → JoinFS
  | Except.ok s => s
  | Except.error s => s

/-- Whether a spatial_join outcome propagated an exception. -/
def joinRaised : Except JoinFS JoinFS → Bool
  | Except.ok _ => false
  | Except.error _ => true

/-! Error-cleanup control flow of to_zip (lines 168-193):

    zipfile_path = path_to_shp minus its extension, plus .zip
    try:
        z = zipfile.ZipFile(zipfile_path, w)   # creates the archive file
        write the sibling dataset files, close
    except Exception as e:
        if os.path.exists(zipfile_path):
            os.remove(zipfile_path)
        raise e
    finally:
        if os.path.exists(path_to_shp) and delete_files:
            cls.driver.DeleteDataSource(path_to_shp)

State: whether the archive file exists and whether the original dataset files
exist.  writeErr injects a failure inside the try block after ZipFile has
created the archive file. -/

/-- File-system state seen by to_zip: the archive file and the original
dataset files. -/
structure ZipFS where
  archive : Bool
  shp : Bool
deriving DecidableEq, Repr

/-- Embedding of to_zip (lines 168-193) with failure injection: the outcome
carries the final file-system state; an error outcome means the exception
propagated to the caller.  The finally block runs on both exits. -/
def to_zip_model (st : ZipFS) (writeErr delete_files : Bool) :
    Except ZipFS ZipFS :=
  let st1 : ZipFS := { st with archive := true }
  let afterTry : Except ZipFS ZipFS :=
    if writeErr then Except.error { st1 with archive := false }
    else Except.ok st1
  match afterTry with
  | Except.ok s =>
    Except.ok (if s.shp && delete_files then { s with shp := false } else s)
  | Except.error s =>
    Except.error (if s.shp && delete_files then { s with shp := false } else s)

/-- The file-system state of a to_zip outcome. -/
def zipOutState : Except ZipFS ZipFS → ZipFS
  | Except.ok s => s
  | Except.error s => s

/-- Whether a to_zip outcome propagated an exception. -/
def zipRaised : Except ZipFS ZipFS → Bool
  | Except.ok _ => false
  | Except.error _ => true

/-! Helper lemmas: correctness of the decimal rendering and of the fresh-name
search, and structural facts about the mapping build. -/

theorem valLE_digitsLEAux : ∀ fuel n, n ≤ fuel → valLE (digitsLEAux fuel n) = n := by
  intro fuel
  induction fuel with
  | zero =>
    intro n hn
    have : n = 0 := Nat.le_zero.mp hn
    subst this
    simp [digitsLEAux, valLE]
  | succ fuel ih =>
    intro n hn
    rw [digitsLEAux]
    by_cases h : n < 10
    · simp [h, valLE]
    · have hdiv : n / 10 ≤ fuel := by
        have : n / 10 < n := Nat.div_lt_self (by omega) (by omega)
        omega
      simp only [h, if_false, valLE, ih (n / 10) hdiv]
      omega

theorem valLE_digitsLE (n : Nat) : valLE (digitsLE n) = n :=
  valLE_digitsLEAux n n (Nat.le_refl n)

theorem digitsLE_injective : Function.Injective digitsLE := by
  intro a b h
  have := congrArg valLE h
  rwa [valLE_digitsLE, valLE_digitsLE] at this

theorem digitsLEAux_lt10 : ∀ fuel n d, d ∈ digitsLEAux fuel n → d < 10 := by
  intro fuel
  induction fuel with
  | zero =>
    intro n d hd
    simp only [digitsLEAux, List.mem_singleton] at hd
    subst hd
    exact Nat.mod_lt n (by omega)
  | succ fuel ih =>
    intro n d hd
    rw [digitsLEAux] at hd
    by_cases h : n < 10
    · simp only [h, if_true, List.mem_singleton] at hd
      omega
    · simp only [h, if_false, List.mem_cons] at hd
      rcases hd with rfl | hd
      · exact Nat.mod_lt n (by omega)
      · exact ih (n / 10) d hd

theorem digitsLE_lt10 (n : Nat) : ∀ d ∈ digitsLE n, d < 10 :=
  fun d hd => digitsLEAux_lt10 n n d hd

theorem digitChar_inj_lt10 :
    ∀ a < 10, ∀ b < 10, Nat.digitChar a = Nat.digitChar b → a = b := by decide

theorem map_digitChar_inj : ∀ l₁ l₂ : List Nat, (∀ d ∈ l₁, d < 10) →
    (∀ d ∈ l₂, d < 10) → l₁.map Nat.digitChar = l₂.map Nat.digitChar → l₁ = l₂ := by
  intro l₁
  induction l₁ with
  | nil => intro l₂ _ _ h; cases l₂ <;> simp_all
  | cons a t ih =>
    intro l₂ h1 h2 h
    cases l₂ with
    | nil => simp_all
    | cons b t₂ =>
      simp only [List.map_cons, List.cons.injEq] at h
      have ha : a = b := digitChar_inj_lt10 a (h1 a (by simp)) b (h2 b (by simp)) h.1
      have ht : t = t₂ := ih t₂ (fun d hd => h1 d (by simp [hd]))
        (fun d hd => h2 d (by simp [hd])) h.2
      rw [ha, ht]

theorem natRepr_injective : Function.Injective natRepr := by
  intro a b h
  have hdata : ((digitsLE a).reverse.map Nat.digitChar)
      = ((digitsLE b).reverse.map Nat.digitChar) := congrArg String.data h
  have hrev : (digitsLE a).reverse = (digitsLE b).reverse :=
    map_digitChar_inj _ _ (fun d hd => digitsLE_lt10 a d (List.mem_reverse.mp hd))
      (fun d hd => digitsLE_lt10 b d (List.mem_reverse.mp hd)) hdata
  exact digitsLE_injective (List.reverse_injective hrev)

theorem genName_injective : Function.Injective genName := by
  intro a b h
  have hdata : "new".data ++ (natRepr a).data = "new".data ++ (natRepr b).data := by
    have := congrArg String.data h
    simpa [genName, String.data_append] using this
  have : (natRepr a).data = (natRepr b).data := List.append_cancel_left hdata
  exact natRepr_injective (String.ext this)

theorem resolveAux_not_mem (names : List String) :
    ∀ fuel num, (∃ j, j < fuel ∧ genName (num + 1 + j) ∉ names) →
    resolveAux names fuel num ∉ names := by
  intro fuel
  induction fuel with
  | zero => intro num h; exact absurd h.choose_spec.1 (by omega)
  | succ fuel ih =>
    intro num h
    rw [resolveAux]
    by_cases hc : genName (num + 1) ∈ names
    · simp only [hc, if_true]
      obtain ⟨j, hj, hfresh⟩ := h
      match j, hfresh with
      | 0, hfresh => exact absurd hc hfresh
      | j + 1, hfresh =>
        exact ih (num + 1) ⟨j, by omega, by
          have : num + 1 + 1 + j = num + 1 + (j + 1) := by omega
          rw [this]; exact hfresh⟩
    · simp [hc]

theorem exists_fresh (names : List String) (num : Nat) :
    ∃ j, j < names.length + 1 ∧ genName (num + 1 + j) ∉ names := by
  by_contra hall
  push_neg at hall
  set cands : List String :=
    (List.range (names.length + 1)).map (fun j => genName (num + 1 + j)) with hc
  have hnd : cands.Nodup := by
    refine List.Nodup.map ?_ (List.nodup_range _)
    intro x y hxy
    have := genName_injective hxy
    omega
  have hsub : cands ⊆ names := by
    intro x hx
    rw [hc, List.mem_map] at hx
    obtain ⟨j, hj, rfl⟩ := hx
    exact hall j (List.mem_range.mp hj)
  have hlen : cands.length ≤ names.length :=
    (List.subperm_of_subset hnd hsub).length_le
  simp [hc] at hlen

theorem resolveName_not_mem (names : List String) (cand : String) :
    resolveName names cand ∉ names := by
  rw [resolveName]
  by_cases hc : cand ∈ names
  · simp only [hc, if_true]
    exact resolveAux_not_mem names _ 0 (by simpa using exists_fresh names 0)
  · simp [hc]

theorem sfjf_mem_schema (fields : List String) :
    ∀ names s, s ∈ names → s ∈ (set_for_join_fields names fields).2 := by
  induction fields with
  | nil => intro names s hs; simpa [set_for_join_fields] using hs
  | cons f rest ih =>
    intro names s hs
    exact ih (resolveName names f :: names) s (by simp [hs])

theorem sfjf_values_mem (fields : List String) :
    ∀ names p, p ∈ (set_for_join_fields names fields).1 →
    p.2 ∈ (set_for_join_fields names fields).2 := by
  induction fields with
  | nil => intro names p hp; simp [set_for_join_fields] at hp
  | cons f rest ih =>
    intro names p hp
    simp only [set_for_join_fields, List.mem_cons] at hp
    rcases hp with rfl | hp
    · exact sfjf_mem_schema rest _ _ (by simp)
    · exact ih _ p hp

theorem sfjf_values_fresh (fields : List String) :
    ∀ names p, p ∈ (set_for_join_fields names fields).1 → p.2 ∉ names := by
  induction fields with
  | nil => intro names p hp; simp [set_for_join_fields] at hp
  | cons f rest ih =>
    intro names p hp
    simp only [set_for_join_fields, List.mem_cons] at hp
    rcases hp with rfl | hp
    · exact resolveName_not_mem names f
    · intro hmem
      exact ih _ p hp (by simp [hmem])

theorem sfjf_schema_length (fields : List String) :
    ∀ names, (set_for_join_fields names fields).2.length
      = names.length + fields.length := by
  induction fields with
  | nil => intro names; simp [set_for_join_fields]
  | cons f rest ih =>
    intro names
    simp only [set_for_join_fields, ih, List.length_cons]
    omega

theorem sfjf_mapping_length (fields : List String) :
    ∀ names, (set_for_join_fields names fields).1.length = fields.length := by
  induction fields with
  | nil => intro names; simp [set_for_join_fields]
  | cons f rest ih => intro names; simp [set_for_join_fields, ih]

theorem sfjf_keys (fields : List String) :
    ∀ names, (set_for_join_fields names fields).1.map Prod.fst = fields := by
  induction fields with
  | nil => intro names; simp [set_for_join_fields]
  | cons f rest ih => intro names; simp [set_for_join_fields, ih]

theorem sfjf_schema_nodup (fields : List String) :
    ∀ names, names.Nodup → (set_for_join_fields names fields).2.Nodup := by
  induction fields with
  | nil => intro names h; simpa [set_for_join_fields] using h
  | cons f rest ih =>
    intro names h
    exact ih _ (List.nodup_cons.mpr ⟨resolveName_not_mem names f, h⟩)

theorem sfjf_values_nodup (fields : List String) :
    ∀ names, ((set_for_join_fields names fields).1.map Prod.snd).Nodup := by
  induction fields with
  | nil => intro names; simp [set_for_join_fields]
  | cons f rest ih =>
    intro names
    simp only [set_for_join_fields, List.map_cons, List.nodup_cons]
    refine ⟨?_, ih _⟩
    intro hmem
    rw [List.mem_map] at hmem
    obtain ⟨p, hp, hv⟩ := hmem
    exact sfjf_values_fresh rest _ p hp (by simp [hv])

theorem resolveAuxT_head (names : List String) (fuel num : Nat) :
    (resolveAuxT names (fuel + 1) num).1.take 1 = [genName (num + 1)] := by
  rw [resolveAuxT]
  by_cases hc : genName (num + 1) ∈ names <;> simp [hc]

theorem features_eq_filterMap (G : Type) (transform : Option (G → G))
    (fns : List String) (layer : List (Feature G)) :
    features_to_list_of_dict G transform fns layer
      = layer.filterMap (fun f => f.geom.map (fun g =>
          ⟨fns.map (fun fl => (fl, f.attrs fl)),
            match transform with | Option.none => g | some t => t g⟩)) := by
  induction layer with
  | nil => rfl
  | cons f rest ih =>
    cases hg : f.geom <;>
      simp [features_to_list_of_dict, hg, List.filterMap_cons, ih]

theorem features_length (G : Type) (transform : Option (G → G))
    (fns : List String) (layer : List (Feature G)) :
    (features_to_list_of_dict G transform fns layer).length
      = (layer.filter (fun f => f.geom.isSome)).length := by
  induction layer with
  | nil => rfl
  | cons f rest ih =>
    cases hg : f.geom <;>
      simp [features_to_list_of_dict, hg, List.filter_cons, ih]

/-! Claim theorems. -/

/-- C1 counterexample: an error raised inside copy_ds after CreateDataSource
has created the output file (or raised by the GetLayer call on line 130)
propagates to the caller while the output dataset file still exists, because
lines 129-130 run before the try block of line 131.  This refutes the claim
that any error during steps 1-6, the initial copy included, leads to deletion
of the created output file before the error propagates. -/
theorem c1_copy_error_leaves_output_file :
    spatial_join_model ⟨false, 0⟩ false true false = Except.error ⟨true, 0⟩
    ∧ (joinOutState (spatial_join_model ⟨false, 0⟩ false true false)).output = true
    ∧ joinRaised (spatial_join_model ⟨false, 0⟩ false true false) = true :=
  ⟨rfl, rfl, rfl⟩

/-- C1 amended: if an error is raised during steps 2-6 (inside the try block,
after the copy of step 1 has completed), the output dataset file is deleted
before the error propagates and the original destination dataset is
unchanged; on success the output file remains; the original destination
dataset is unchanged on every path, but an error raised during the copy of
step 1 itself can leave the created output file behind. -/
theorem c1_try_block_error_deletes_output (st : JoinFS) (e1 e2 b : Bool) :
    spatial_join_model st false false true = Except.error ⟨false, st.dest⟩
    ∧ spatial_join_model st false false false = Except.ok ⟨true, st.dest⟩
    ∧ (joinOutState (spatial_join_model st e1 e2 b)).dest = st.dest := by
  obtain ⟨o, d⟩ := st
  refine ⟨rfl, rfl, ?_⟩
  cases e1 <;> cases e2 <;> cases b <;> rfl

/-- C2 counterexample: with destination schema a, b and source fields a, b,
the build generates the candidate new1 twice (once for each field), because
name_num is re-initialised to 0 on line 92 for every source field.  This
refutes the claim that the counter is shared across the whole build and that
repeated collisions across different source fields never produce the same
generated candidate name twice. -/
theorem c2_generated_candidate_repeated :
    set_for_join_fieldsT ["a", "b"] ["a", "b"] = ["new1", "new1", "new2"]
    ∧ ¬ (set_for_join_fieldsT ["a", "b"] ["a", "b"]).Nodup := by decide

/-- C2 amended: the collision counter is re-initialised for every source
field, so the first generated candidate of every colliding field is new1 and
the same generated candidate can recur across fields; nevertheless, because
every accepted name joins the live schema before the next field is processed,
the finally resolved destination names of one build are pairwise distinct. -/
theorem c2_counter_reset_per_field (names fields : List String) (f : String) :
    (f ∈ names → (resolveNameT names f).1.take 1 = [genName 1])
    ∧ ((set_for_join_fields names fields).1.map Prod.snd).Nodup := by
  constructor
  · intro hf
    rw [resolveNameT]
    simp only [hf, if_true]
    exact resolveAuxT_head names names.length 0
  · exact sfjf_values_nodup fields names

/-- C2 witness: the amended theorem applied to the concrete counterexample
schema and fields. -/
theorem c2_counter_reset_witness :
    (resolveNameT ["a", "b"] "a").1.take 1 = [genName 1]
    ∧ ((set_for_join_fields ["a", "b"] ["a", "b"]).1.map Prod.snd).Nodup :=
  ⟨(c2_counter_reset_per_field ["a", "b"] ["a", "b"] "a").1 (by decide),
   (c2_counter_reset_per_field ["a", "b"] ["a", "b"] "a").2⟩

/-- C3 counterexample: a source layer holding one feature whose geometry is
absent materialises to the empty list (the append on line 67 sits under the
geometry test of line 63), so the materialised list is shorter than the
source feature list.  This refutes the claim that every source feature
without exception is materialised and that the list length equals the number
of source features. -/
theorem c3_feature_without_geometry_dropped :
    features_to_list_of_dict Unit Option.none []
        [{ attrs := fun _ => PyVal.vnone, geom := Option.none }] = []
    ∧ ([{ attrs := fun _ => PyVal.vnone, geom := Option.none }]
        : List (Feature Unit)).length = 1 :=
  ⟨rfl, rfl⟩

/-- C3 amended: exactly the source features that have a geometry are
materialised, in order, each entry carrying the attribute values over the
source field names together with the transformed geometry; the length of the
materialised list equals the number of source features that have a
geometry. -/
theorem c3_materializes_features_with_geometry (G : Type)
    (transform : Option (G → G)) (fns : List String) (layer : List (Feature G)) :
    features_to_list_of_dict G transform fns layer
      = layer.filterMap (fun f => f.geom.map (fun g =>
          ⟨fns.map (fun fl => (fl, f.attrs fl)),
            match transform with | Option.none => g | some t => t g⟩))
    ∧ (features_to_list_of_dict G transform fns layer).length
      = (layer.filter (fun f => f.geom.isSome)).length :=
  ⟨features_eq_filterMap G transform fns layer,
   features_length G transform fns layer⟩

/-- C4 counterexample: with destination feature count 2, the emitted
percentage is 50 after the first feature and 0 after the second, so the
percentage strictly decreases over successive iterations.  This refutes the
claim that the computed integer percentage is monotonically
non-decreasing. -/
theorem c4_progress_not_nondecreasing :
    (1 : Nat) ≤ 2 ∧ progress 2 1 = 50 ∧ progress 2 2 = 0
    ∧ ¬ progress 2 1 ≤ progress 2 2 := by decide

/-- C4 amended: the computed integer percentage is monotonically
non-increasing over successive iterations (the formula on line 159 divides
the count of features still remaining by the total). -/
theorem c4_progress_nonincreasing (D n : Nat) (_hD : 1 ≤ D) :
    progress D (n + 1) ≤ progress D n :=
  Nat.div_le_div_right (by omega)

/-- C4 witness: the amended monotonicity at the concrete counterexample
instance. -/
theorem c4_progress_nonincreasing_witness :
    (1 : Nat) ≤ 2 ∧ progress 2 (1 + 1) ≤ progress 2 1 :=
  ⟨by decide, c4_progress_nonincreasing 2 1 (by decide)⟩

/-- C5 counterexample: starting from destination schema a and joining source
field a twice in succession, the first join resolves a to new1 and the second
resolves a to new2, because line 85 aliases self._field_names and line 99
grows that set in place, so the first join leaves new1 visible to the
second.  This refutes the claim that two successive identical joins yield
identical field mappings. -/
theorem c5_successive_joins_differ :
    twoJoins ["a"] ["a"] = ([("a", "new1")], [("a", "new2")])
    ∧ (twoJoins ["a"] ["a"]).1 ≠ (twoJoins ["a"] ["a"]).2 := by decide

/-- C5 amended: the collision-check schema is the persistent handler set
self._field_names, mutated in place, so every destination name generated by
the first join stays visible to the second; consequently no destination name
recorded by the second join ever equals one recorded by the first, and two
successive identical joins can produce different mappings. -/
theorem c5_second_join_avoids_first_join_names (names fields : List String)
    (p q : String × String) (hp : p ∈ (twoJoins names fields).2)
    (hq : q ∈ (twoJoins names fields).1) : p.2 ≠ q.2 := by
  simp only [twoJoins] at hp hq
  intro heq
  have hqmem : q.2 ∈ (set_for_join_fields names fields).2 :=
    sfjf_values_mem fields names q hq
  have hpfresh : p.2 ∉ (set_for_join_fields names fields).2 :=
    sfjf_values_fresh fields (set_for_join_fields names fields).2 p hp
  rw [heq] at hpfresh
  exact hpfresh hqmem

/-- C5 witness: the amended theorem applied to the concrete counterexample
instance. -/
theorem c5_second_join_witness : ("a", "new2").2 ≠ ("a", "new1").2 :=
  c5_second_join_avoids_first_join_names ["a"] ["a"] ("a", "new2") ("a", "new1")
    (by decide) (by decide)

/-- C6 counterexample: for the supplied output path out.shp, the resolved
path is out.shp.shp, not out.shp, because line 124 appends the extension
unconditionally and the endswith guard on line 126 therefore never fires.
This refutes the claim that the dataset is created exactly at the supplied
path when it already ends in the extension. -/
theorem c6_explicit_path_not_respected :
    resolve_output_path "out.shp" = "out.shp.shp"
    ∧ ("out.shp.shp" : String) ≠ "out.shp" := by decide

/-- C6 amended: for every explicitly supplied output path p, the resolved
on-disk path is p with the extension .shp appended, whether or not p already
ends in .shp (the endswith test on line 126 is dead code). -/
theorem c6_resolved_path_appends_shp (p : String) :
    resolve_output_path p = p ++ ".shp" := by
  have h : pyEndsWith (p ++ ".shp") ".shp" = true := by
    rw [pyEndsWith, decide_eq_true_eq, String.data_append]
    exact List.suffix_append _ _
  simp [resolve_output_path, h]

/-- C7 counterexample: invoking to_zip with deletion requested on an existing
dataset while archive creation fails still deletes the original dataset
files, because the deletion sits in the finally block of line 191, which runs
after the except handler and before the re-raised error reaches the caller.
This refutes the claim that the originals are not deleted when archive
creation fails. -/
theorem c7_originals_deleted_despite_failure :
    to_zip_model ⟨false, true⟩ true true = Except.error ⟨false, false⟩
    ∧ (zipOutState (to_zip_model ⟨false, true⟩ true true)).shp = false
    ∧ zipRaised (to_zip_model ⟨false, true⟩ true true) = true :=
  ⟨rfl, rfl, rfl⟩

/-- C7 amended: the original dataset files are deleted whenever deletion is
requested and the file exists, regardless of whether archive creation
succeeded or failed (the finally block runs on both exits); the partial
archive is removed exactly on failure, and the call raises exactly when
archive creation failed. -/
theorem c7_finally_deletes_requested_originals (st : ZipFS) (e df : Bool) :
    (zipOutState (to_zip_model st e df)).shp = (st.shp && !df)
    ∧ (zipOutState (to_zip_model st e df)).archive = !e
    ∧ zipRaised (to_zip_model st e df) = e := by
  obtain ⟨a, s⟩ := st
  cases a <;> cases s <;> cases e <;> cases df <;> exact ⟨rfl, rfl, rfl⟩

/-- C8: for every mapping build from a duplicate-free starting schema and
duplicate-free source field list (the Python dict keys are distinct), the
mapping keys are exactly the source fields, the resulting schema has exactly
starting-size plus mapping-size entries, the resulting schema and the mapped
destination names are duplicate-free, every mapped destination name is
present in the schema after the build, and none was present before. -/
theorem c8_schema_growth_invariants (names fields : List String)
    (hn : names.Nodup) (_hf : fields.Nodup) :
    ((set_for_join_fields names fields).1.map Prod.fst = fields)
    ∧ ((set_for_join_fields names fields).1.length = fields.length)
    ∧ ((set_for_join_fields names fields).2.length
        = names.length + (set_for_join_fields names fields).1.length)
    ∧ (set_for_join_fields names fields).2.Nodup
    ∧ ((set_for_join_fields names fields).1.map Prod.snd).Nodup
    ∧ (∀ p ∈ (set_for_join_fields names fields).1,
        p.2 ∈ (set_for_join_fields names fields).2)
    ∧ (∀ p ∈ (set_for_join_fields names fields).1, p.2 ∉ names) := by
  refine ⟨sfjf_keys fields names, sfjf_mapping_length fields names, ?_,
    sfjf_schema_nodup fields names hn, sfjf_values_nodup fields names,
    fun p hp => sfjf_values_mem fields names p hp,
    fun p hp => sfjf_values_fresh fields names p hp⟩
  rw [sfjf_mapping_length fields names]
  exact sfjf_schema_length fields names

/-- C8 witness: the invariants at the concrete schema name with source fields
name, id (the determinism example of the specification, which resolves to the
mapping name to new1, id to id). -/
theorem c8_schema_growth_witness :
    (set_for_join_fields ["name"] ["name", "id"]).1
      = [("name", "new1"), ("id", "id")]
    ∧ (set_for_join_fields ["name"] ["name", "id"]).1.length = 2
    ∧ (set_for_join_fields ["name"] ["name", "id"]).2.length = 3
    ∧ (set_for_join_fields ["name"] ["name", "id"]).2.Nodup
    ∧ ((set_for_join_fields ["name"] ["name", "id"]).1.map Prod.snd).Nodup := by
  have h := c8_schema_growth_invariants ["name"] ["name", "id"]
    (by decide) (by decide)
  exact ⟨by decide, h.2.1.trans (by decide), h.2.2.1.trans (by decide),
    h.2.2.2.1, h.2.2.2.2.1⟩

/-- C9 counterexample: with destination field value a-space-then-105 and an
incoming empty string (which every string contains as a substring), the merge
does not skip: the truthiness guard of line 149 bypasses the containment
check, the empty value is filtered out of vals, and line 156 rewrites the
field to its stripped current value, which differs from the original.  This
refutes the claim that containment of the incoming value always leaves the
field unchanged. -/
theorem c9_empty_incoming_breaks_idempotence :
    strContains " 105" (PyVal.toStr (PyVal.vstr "")) = true
    ∧ mergeField ";" (some " 105") (PyVal.vstr "") = some "105"
    ∧ (" 105" : String) ≠ "105" := by decide

/-- C9 amended: whenever the incoming source value is truthy (non-empty) and
the destination field currently holds a non-empty value that contains the
stringified incoming value as a case-sensitive substring, the merge step is a
no-op: the continue on line 152 is taken and no SetField call happens. -/
theorem c9_skip_when_nonempty_value_contained (sep t : String) (f : PyVal)
    (hf : f.truthy = true) (ht : t ≠ "") (hc : strContains t f.toStr = true) :
    mergeField sep (some t) f = Option.none := by
  rw [mergeField, if_pos]
  exact ⟨by simp [hf], by simp [optTruthy, ht], by simpa using hc⟩

/-- C9 witness: the amended skip at a concrete contained value. -/
theorem c9_skip_witness :
    mergeField ";" (some "abc") (PyVal.vstr "b") = Option.none :=
  c9_skip_when_nonempty_value_contained ";" "abc" (PyVal.vstr "b")
    (by decide) (by decide) (by decide)

/-- C10: when the matching source value is falsy (empty or null) and the
destination field holds a non-empty value, the merge still rewrites the
field: vals collapses to the singleton current value, and SetField stores
that value stripped of leading and trailing whitespace (line 156). -/
theorem c10_empty_incoming_rewrites_stripped (sep t : String) (f : PyVal)
    (hf : f.truthy = false) (ht : t ≠ "") :
    mergeField sep (some t) f = some (pyStrip t) := by
  have hcond : ¬ (f.truthy ∧ optTruthy (some t)
      ∧ strContains ((some t).getD "") f.toStr) := by
    intro h
    rw [hf] at h
    simp at h
  rw [mergeField, if_neg hcond]
  have h1 : (if f.truthy then PyVal.vstr f.toStr else f) = f := by simp [hf]
  rw [h1]
  have htj : PyVal.truthy (PyVal.vstr t) = true := by simp [PyVal.truthy, ht]
  have h2 : [pyOfOpt (some t), f].filter PyVal.truthy = [PyVal.vstr t] := by
    simp [pyOfOpt, List.filter_cons, htj, hf]
  rw [h2]
  rfl

/-- C10 witness: a null incoming value against a destination value with
surrounding whitespace is rewritten to the stripped value. -/
theorem c10_rewrites_stripped_witness :
    PyVal.truthy PyVal.vnone = false ∧ (" 105 " : String) ≠ ""
    ∧ mergeField ";" (some " 105 ") PyVal.vnone = some (pyStrip " 105 ")
    ∧ pyStrip " 105 " = "105" :=
  ⟨rfl, by decide,
   c10_empty_incoming_rewrites_stripped ";" " 105 " PyVal.vnone rfl (by decide),
   by decide⟩

end ShpHandler
